import Mathlib

/-!
# Verification of the toy transactions engine

A shallow embedding, in Lean 4, of the Rust sources of the toy
transactions engine (`src/types.rs`, `src/engine.rs`), together with
theorems settling the specification claims about it.

Modelling choices:
* `rust_decimal::Decimal` is modelled by `Rat` (exact decimal
  arithmetic; the engine only adds, subtracts and compares amounts).
* `u16` client ids and `u32` transaction ids are modelled by `Nat`
  (the engine never does arithmetic on them).
* `HashMap` is modelled by an association list with replace-on-insert
  semantics (`insertA`); lookups see exactly the map behaviour.
* `Result<(), String>` on `&mut self` methods becomes
  `Account → Rat → Except String Account`.
* Rust's `match … { "deposit" => …, t => … }` over `&str` is a
  sequence of string-equality tests, rendered as an `if`-chain.
-/

namespace ToyTx

/-- Association-list lookup: first binding for key `k`, mirroring map lookup. -/
def lookupA {α : Type} : List (Nat × α) → Nat → Option α
  | [], _ => none
  | (k, v) :: rest, c => if k = c then some v else lookupA rest c

/-- Association-list insert with replace semantics, mirroring `HashMap::insert`
(and the write-back of `HashMap::entry`). -/
def insertA {α : Type} (k : Nat) (v : α) : List (Nat × α) → List (Nat × α)
  | [] => [(k, v)]
  | (k', v') :: rest => if k = k' then (k, v) :: rest else (k', v') :: insertA k v rest

/-- Association-list key removal, mirroring `HashMap::remove`: afterwards the
key has no binding at all. -/
def eraseKey {α : Type} (k : Nat) : List (Nat × α) → List (Nat × α)
  | [] => []
  | (k', v') :: rest => if k = k' then eraseKey k rest else (k', v') :: eraseKey k rest

theorem lookupA_insertA_self {α : Type} (k : Nat) (v : α) (m : List (Nat × α)) :
    lookupA (insertA k v m) k = some v := by
  induction m with
  | nil => simp [insertA, lookupA]
  | cons p rest ih =>
    obtain ⟨k', v'⟩ := p
    by_cases h : k = k'
    · simp [insertA, lookupA, h]
    · have h' : ¬ k' = k := fun hkk => h hkk.symm
      simp [insertA, lookupA, h, h', ih]

theorem lookupA_insertA_ne {α : Type} (k c : Nat) (v : α) (m : List (Nat × α))
    (h : c ≠ k) : lookupA (insertA k v m) c = lookupA m c := by
  have hkc : ¬ k = c := fun hkk => h hkk.symm
  induction m with
  | nil => simp [insertA, lookupA, hkc]
  | cons p rest ih =>
    obtain ⟨k', v'⟩ := p
    by_cases hk : k = k'
    · subst hk
      simp [insertA, lookupA, hkc]
    · simp only [insertA, if_neg hk, lookupA]
      by_cases hc : k' = c
      · simp [hc]
      · simp [hc, ih]

/-- The per-client account record (`struct Account` in `types.rs`). -/
structure Account where
  client : Nat
  available : Rat
  held : Rat
  total : Rat
  locked : Bool
deriving DecidableEq, Repr

namespace Account

/-- Rust `Account::new` (`types.rs:15`): `total` is derived as `available + held`. -/
def new (client : Nat) (available held : Rat) (locked : Bool) : Account :=
  { client := client, available := available, held := held,
    total := available + held, locked := locked }

/-- Rust `Account::empty` (`types.rs:25`): all-zero, unlocked. -/
def empty (client : Nat) : Account :=
  new client 0 0 false

/-- Rust `Account::deposit` (`types.rs:29`): `available += amount; total += amount`;
always returns `Ok`. -/
def deposit (a : Account) (amount : Rat) : Except String Account :=
  .ok { a with available := a.available + amount, total := a.total + amount }

/-- Rust `Account::withdraw` (`types.rs:36`). -/
def withdraw (a : Account) (amount : Rat) : Except String Account :=
  if amount > a.available then .error "Insufficient available funds"
  else .ok { a with available := a.available - amount, total := a.total - amount }

/-- Rust `Account::dispute` (`types.rs:46`). -/
def dispute (a : Account) (amount : Rat) : Except String Account :=
  if amount > a.available then .error "Insufficient available funds"
  else .ok { a with available := a.available - amount, held := a.held + amount }

/-- Rust `Account::resolve` (`types.rs:56`). -/
def resolve (a : Account) (amount : Rat) : Except String Account :=
  if amount > a.held then .error "Insufficient held funds"
  else .ok { a with available := a.available + amount, held := a.held - amount }

/-- Rust `Account::chargeback` (`types.rs:66`). -/
def chargeback (a : Account) (amount : Rat) : Except String Account :=
  if amount > a.held then .error "Insufficient held funds"
  else .ok { a with held := a.held - amount, total := a.total - amount, locked := true }

end Account

/-- An input record (`struct Transaction` in `types.rs`); the `type` CSV column
is the string field `transaction_type`. -/
structure Transaction where
  transaction_type : String
  client : Nat
  tx : Nat
  amount : Rat
deriving DecidableEq, Repr

/-- The processor's mutable state in `process_transactions` (`engine.rs:5`):
the account map, the two ledger maps and the accumulated diagnostics. -/
structure EngineState where
  accounts : List (Nat × Account)
  applied_txs : List (Nat × Rat)
  disputed_txs : List (Nat × Rat)
  tx_errors : List String
deriving DecidableEq, Repr

/-- The initial state of `process_transactions`: all maps empty, no errors. -/
def initState : EngineState :=
  { accounts := [], applied_txs := [], disputed_txs := [], tx_errors := [] }

/-- The account the loop body works on: `accounts.entry(client).or_insert_with(Account::empty)`
(`engine.rs:11`–`14`). -/
def entryAccount (s : EngineState) (c : Nat) : Account :=
  match lookupA s.accounts c with
  | some a => a
  | none => Account.empty c

/-- Diagnostic of a failed withdrawal (`engine.rs:25`). -/
def withdrawErrMsg (tx : Nat) (err : String) : String :=
  "Error when handling transaction \"" ++ toString tx ++ ("\": " ++ err)

/-- Diagnostic of a dispute whose tx id is not in the applied ledger (`engine.rs:37`). -/
def disputeNotFoundMsg (tx : Nat) : String :=
  "Could not find applied transaction \"" ++ toString tx ++ "\" to dispute"

/-- Diagnostic of a double dispute (`engine.rs:47`). -/
def disputeTwiceMsg (tx : Nat) : String :=
  "Could not dispute same transaction \"" ++ toString tx ++ "\" twice"

/-- Diagnostic of a failed `Account::dispute` call (`engine.rs:59`). -/
def disputeErrMsg (tx : Nat) (err : String) : String :=
  "Could not dispute transaction \"" ++ toString tx ++ ("\": " ++ err)

/-- Diagnostic of a resolve whose tx id is not in the disputed ledger (`engine.rs:71`). -/
def resolveNotFoundMsg (tx : Nat) : String :=
  "Could not find disputed transaction \"" ++ toString tx ++ "\" to resolve"

/-- Diagnostic of a failed `Account::resolve` call (`engine.rs:82`). -/
def resolveErrMsg (tx : Nat) (err : String) : String :=
  "Could not resolve disputed transaction \"" ++ toString tx ++ ("\": " ++ err)

/-- Diagnostic of a chargeback whose tx id is not in the disputed ledger (`engine.rs:94`). -/
def chargebackNotFoundMsg (tx : Nat) : String :=
  "Could not find disputed transaction \"" ++ toString tx ++ "\" to charge back"

/-- Diagnostic of a failed `Account::chargeback` call (`engine.rs:105`). -/
def chargebackErrMsg (tx : Nat) (err : String) : String :=
  "Could not charge back disputed transaction \"" ++ toString tx ++ ("\": " ++ err)

/-- Diagnostic for an unrecognized transaction type (`engine.rs:114`); note it
names the offending type string, not the tx id. -/
def unhandledMsg (t : String) : String :=
  "Unhandled transaction type: \"" ++ t ++ "\""

/-- The `"deposit"` arm of the loop (`engine.rs:17`–`20`). `Account::deposit`
always returns `Ok`, so the `.unwrap()` is the `.ok` case; the `.error` case
below is dead code kept only so the match is total. -/
def depositBranch (s : EngineState) (t : Transaction) : EngineState :=
  let account := entryAccount s t.client
  match account.deposit t.amount with
  | .ok a => { s with accounts := insertA t.client a s.accounts,
                      applied_txs := insertA t.tx t.amount s.applied_txs }
  | .error _ => { s with accounts := insertA t.client account s.accounts }

/-- The `"withdrawal"` arm of the loop (`engine.rs:21`–`32`). -/
def withdrawalBranch (s : EngineState) (t : Transaction) : EngineState :=
  let account := entryAccount s t.client
  match account.withdraw t.amount with
  | .ok a => { s with accounts := insertA t.client a s.accounts,
                      applied_txs := insertA t.tx t.amount s.applied_txs }
  | .error err => { s with accounts := insertA t.client account s.accounts,
                           tx_errors := s.tx_errors ++ [withdrawErrMsg t.tx err] }

/-- The `"dispute"` arm of the loop (`engine.rs:33`–`66`): look up the tx id in
the applied ledger, reject a second dispute of the same id, then call
`Account::dispute` with the applied amount on the account of the dispute
record's own `client` field. -/
def disputeBranch (s : EngineState) (t : Transaction) : EngineState :=
  let account := entryAccount s t.client
  match lookupA s.applied_txs t.tx with
  | none => { s with accounts := insertA t.client account s.accounts,
                     tx_errors := s.tx_errors ++ [disputeNotFoundMsg t.tx] }
  | some disputable =>
    match lookupA s.disputed_txs t.tx with
    | some _ => { s with accounts := insertA t.client account s.accounts,
                         tx_errors := s.tx_errors ++ [disputeTwiceMsg t.tx] }
    | none =>
      match account.dispute disputable with
      | .ok a => { s with accounts := insertA t.client a s.accounts,
                          disputed_txs := insertA t.tx disputable s.disputed_txs }
      | .error err => { s with accounts := insertA t.client account s.accounts,
                               tx_errors := s.tx_errors ++ [disputeErrMsg t.tx err] }

/-- The `"resolve"` arm of the loop (`engine.rs:67`–`89`). -/
def resolveBranch (s : EngineState) (t : Transaction) : EngineState :=
  let account := entryAccount s t.client
  match lookupA s.disputed_txs t.tx with
  | none => { s with accounts := insertA t.client account s.accounts,
                     tx_errors := s.tx_errors ++ [resolveNotFoundMsg t.tx] }
  | some resolvable =>
    match account.resolve resolvable with
    | .ok a => { s with accounts := insertA t.client a s.accounts,
                        disputed_txs := eraseKey t.tx s.disputed_txs }
    | .error err => { s with accounts := insertA t.client account s.accounts,
                             tx_errors := s.tx_errors ++ [resolveErrMsg t.tx err] }

/-- The `"chargeback"` arm of the loop (`engine.rs:90`–`112`). -/
def chargebackBranch (s : EngineState) (t : Transaction) : EngineState :=
  let account := entryAccount s t.client
  match lookupA s.disputed_txs t.tx with
  | none => { s with accounts := insertA t.client account s.accounts,
                     tx_errors := s.tx_errors ++ [chargebackNotFoundMsg t.tx] }
  | some backChargeable =>
    match account.chargeback backChargeable with
    | .ok a => { s with accounts := insertA t.client a s.accounts,
                        disputed_txs := eraseKey t.tx s.disputed_txs }
    | .error err => { s with accounts := insertA t.client account s.accounts,
                             tx_errors := s.tx_errors ++ [chargebackErrMsg t.tx err] }

/-- The fallthrough arm for an unrecognized type string (`engine.rs:113`–`115`);
note the account for the record's client has already been created by `entry`. -/
def unhandledBranch (s : EngineState) (t : Transaction) : EngineState :=
  let account := entryAccount s t.client
  { s with accounts := insertA t.client account s.accounts,
           tx_errors := s.tx_errors ++ [unhandledMsg t.transaction_type] }

/-- One iteration of the `for transaction in transactions` loop of
`process_transactions` (`engine.rs:11`–`117`): get-or-create the account for
`transaction.client`, then dispatch on the type string. -/
def step (s : EngineState) (t : Transaction) : EngineState :=
  if t.transaction_type = "deposit" then depositBranch s t
  else if t.transaction_type = "withdrawal" then withdrawalBranch s t
  else if t.transaction_type = "dispute" then disputeBranch s t
  else if t.transaction_type = "resolve" then resolveBranch s t
  else if t.transaction_type = "chargeback" then chargebackBranch s t
  else unhandledBranch s t

/-- The loop of `process_transactions`, started from an arbitrary state. -/
def processFrom (s : EngineState) (txs : List Transaction) : EngineState :=
  txs.foldl step s

/-- Rust `process_transactions` (`engine.rs:5`): fold the whole input over `step`
from the empty state.  The Rust function returns
`(accounts as a Vec, tx_errors)`; we return the final state, whose `accounts`
and `tx_errors` fields are those two components. -/
def processTransactions (txs : List Transaction) : EngineState :=
  processFrom initState txs

/-- The observable balance row of a client: the account stored for it, or the
empty account if it was never created. -/
def accountView (s : EngineState) (c : Nat) : Account :=
  match lookupA s.accounts c with
  | some a => a
  | none => Account.empty c

/-- The spec's invariant: `total == available + held`. -/
def Account.balanced (a : Account) : Prop :=
  a.total = a.available + a.held

instance (a : Account) : Decidable a.balanced := by
  unfold Account.balanced
  infer_instance

/-- The result an `Account` method leaves behind on the account: the updated
account on `Ok`, the untouched receiver on `Err` (the Rust methods return
early without writing on failure). -/
def afterOp (r : Except String Account) (a : Account) : Account :=
  match r with
  | .ok a' => a'
  | .error _ => a

/-- The five type strings the dispatcher recognizes. -/
def knownTypes : List String :=
  ["deposit", "withdrawal", "dispute", "resolve", "chargeback"]

/-- Whether the dispatch rules reject the record `t` when it arrives in state
`s` (read off the branches of the loop body): deposits never; withdrawals on
insufficient available funds; disputes on an unknown applied tx, a doubled
dispute, or insufficient available funds; resolves and chargebacks on an
unknown disputed tx or insufficient held funds; unrecognized types always. -/
def rejects (s : EngineState) (t : Transaction) : Bool :=
  if t.transaction_type = "deposit" then false
  else if t.transaction_type = "withdrawal" then
    decide (t.amount > (entryAccount s t.client).available)
  else if t.transaction_type = "dispute" then
    match lookupA s.applied_txs t.tx with
    | none => true
    | some d =>
      match lookupA s.disputed_txs t.tx with
      | some _ => true
      | none => decide (d > (entryAccount s t.client).available)
  else if t.transaction_type = "resolve" then
    match lookupA s.disputed_txs t.tx with
    | none => true
    | some d => decide (d > (entryAccount s t.client).held)
  else if t.transaction_type = "chargeback" then
    match lookupA s.disputed_txs t.tx with
    | none => true
    | some d => decide (d > (entryAccount s t.client).held)
  else true

/-- Number of records of `txs` the dispatch rules reject, starting in `s`. -/
def countRejected : EngineState → List Transaction → Nat
  | _, [] => 0
  | s, t :: ts => (if rejects s t then 1 else 0) + countRejected (step s t) ts

/-- A diagnostic string "identifies the transaction id" when the decimal
rendering of the tx id occurs in it. -/
def containsTxId (tx : Nat) (m : String) : Prop :=
  ∃ p q : String, m = p ++ toString tx ++ q

/-- Forget the `locked` flag (for comparing balance content only). -/
def eraseLocked (a : Account) : Account :=
  { a with locked := false }

/-- Overwrite every stored account's `locked` flag according to `L`. -/
def withLockedMap (L : Nat → Bool) (m : List (Nat × Account)) : List (Nat × Account) :=
  m.map (fun p => (p.1, { p.2 with locked := L p.1 }))

/-- The same engine state with every stored account's `locked` flag replaced. -/
def setLockedAll (L : Nat → Bool) (s : EngineState) : EngineState :=
  { s with accounts := withLockedMap L s.accounts }

/-- Every record of `txs` addressed to client `c` is rejected by the dispatch
rules at the state where it is processed. -/
def allRejectedFor (c : Nat) : EngineState → List Transaction → Prop
  | _, [] => True
  | s, t :: ts => (t.client = c → rejects s t = true) ∧ allRejectedFor c (step s t) ts

/-!
## Characterization lemmas for the loop branches
-/

theorem entryAccount_client (s : EngineState) (c : Nat)
    (hcl : ∀ c' a, lookupA s.accounts c' = some a → a.client = c') :
    (entryAccount s c).client = c := by
  unfold entryAccount
  cases h : lookupA s.accounts c with
  | some a => exact hcl c a h
  | none => rfl

theorem depositBranch_eq (s : EngineState) (t : Transaction) :
    depositBranch s t =
      { s with
        accounts := insertA t.client
          { entryAccount s t.client with
            available := (entryAccount s t.client).available + t.amount,
            total := (entryAccount s t.client).total + t.amount } s.accounts,
        applied_txs := insertA t.tx t.amount s.applied_txs } := by
  rfl

theorem withdrawalBranch_rejected (s : EngineState) (t : Transaction)
    (h : t.amount > (entryAccount s t.client).available) :
    withdrawalBranch s t =
      { s with
        accounts := insertA t.client (entryAccount s t.client) s.accounts,
        tx_errors := s.tx_errors ++ [withdrawErrMsg t.tx "Insufficient available funds"] } := by
  unfold withdrawalBranch
  simp [Account.withdraw, h]

theorem withdrawalBranch_ok (s : EngineState) (t : Transaction)
    (h : ¬ t.amount > (entryAccount s t.client).available) :
    withdrawalBranch s t =
      { s with
        accounts := insertA t.client
          { entryAccount s t.client with
            available := (entryAccount s t.client).available - t.amount,
            total := (entryAccount s t.client).total - t.amount } s.accounts,
        applied_txs := insertA t.tx t.amount s.applied_txs } := by
  unfold withdrawalBranch
  simp [Account.withdraw, h]

theorem disputeBranch_notFound (s : EngineState) (t : Transaction)
    (h : lookupA s.applied_txs t.tx = none) :
    disputeBranch s t =
      { s with
        accounts := insertA t.client (entryAccount s t.client) s.accounts,
        tx_errors := s.tx_errors ++ [disputeNotFoundMsg t.tx] } := by
  unfold disputeBranch
  simp [h]

theorem disputeBranch_twice (s : EngineState) (t : Transaction) (d d' : Rat)
    (h1 : lookupA s.applied_txs t.tx = some d)
    (h2 : lookupA s.disputed_txs t.tx = some d') :
    disputeBranch s t =
      { s with
        accounts := insertA t.client (entryAccount s t.client) s.accounts,
        tx_errors := s.tx_errors ++ [disputeTwiceMsg t.tx] } := by
  unfold disputeBranch
  simp [h1, h2]

theorem disputeBranch_insufficient (s : EngineState) (t : Transaction) (d : Rat)
    (h1 : lookupA s.applied_txs t.tx = some d)
    (h2 : lookupA s.disputed_txs t.tx = none)
    (h3 : d > (entryAccount s t.client).available) :
    disputeBranch s t =
      { s with
        accounts := insertA t.client (entryAccount s t.client) s.accounts,
        tx_errors := s.tx_errors ++ [disputeErrMsg t.tx "Insufficient available funds"] } := by
  unfold disputeBranch
  simp [h1, h2, Account.dispute, h3]

theorem disputeBranch_ok (s : EngineState) (t : Transaction) (d : Rat)
    (h1 : lookupA s.applied_txs t.tx = some d)
    (h2 : lookupA s.disputed_txs t.tx = none)
    (h3 : ¬ d > (entryAccount s t.client).available) :
    disputeBranch s t =
      { s with
        accounts := insertA t.client
          { entryAccount s t.client with
            available := (entryAccount s t.client).available - d,
            held := (entryAccount s t.client).held + d } s.accounts,
        disputed_txs := insertA t.tx d s.disputed_txs } := by
  unfold disputeBranch
  simp [h1, h2, Account.dispute, h3]

theorem resolveBranch_notFound (s : EngineState) (t : Transaction)
    (h : lookupA s.disputed_txs t.tx = none) :
    resolveBranch s t =
      { s with
        accounts := insertA t.client (entryAccount s t.client) s.accounts,
        tx_errors := s.tx_errors ++ [resolveNotFoundMsg t.tx] } := by
  unfold resolveBranch
  simp [h]

theorem resolveBranch_insufficient (s : EngineState) (t : Transaction) (d : Rat)
    (h1 : lookupA s.disputed_txs t.tx = some d)
    (h2 : d > (entryAccount s t.client).held) :
    resolveBranch s t =
      { s with
        accounts := insertA t.client (entryAccount s t.client) s.accounts,
        tx_errors := s.tx_errors ++ [resolveErrMsg t.tx "Insufficient held funds"] } := by
  unfold resolveBranch
  simp [h1, Account.resolve, h2]

theorem resolveBranch_ok (s : EngineState) (t : Transaction) (d : Rat)
    (h1 : lookupA s.disputed_txs t.tx = some d)
    (h2 : ¬ d > (entryAccount s t.client).held) :
    resolveBranch s t =
      { s with
        accounts := insertA t.client
          { entryAccount s t.client with
            available := (entryAccount s t.client).available + d,
            held := (entryAccount s t.client).held - d } s.accounts,
        disputed_txs := eraseKey t.tx s.disputed_txs } := by
  unfold resolveBranch
  simp [h1, Account.resolve, h2]

theorem chargebackBranch_notFound (s : EngineState) (t : Transaction)
    (h : lookupA s.disputed_txs t.tx = none) :
    chargebackBranch s t =
      { s with
        accounts := insertA t.client (entryAccount s t.client) s.accounts,
        tx_errors := s.tx_errors ++ [chargebackNotFoundMsg t.tx] } := by
  unfold chargebackBranch
  simp [h]

theorem chargebackBranch_insufficient (s : EngineState) (t : Transaction) (d : Rat)
    (h1 : lookupA s.disputed_txs t.tx = some d)
    (h2 : d > (entryAccount s t.client).held) :
    chargebackBranch s t =
      { s with
        accounts := insertA t.client (entryAccount s t.client) s.accounts,
        tx_errors := s.tx_errors ++ [chargebackErrMsg t.tx "Insufficient held funds"] } := by
  unfold chargebackBranch
  simp [h1, Account.chargeback, h2]

theorem chargebackBranch_ok (s : EngineState) (t : Transaction) (d : Rat)
    (h1 : lookupA s.disputed_txs t.tx = some d)
    (h2 : ¬ d > (entryAccount s t.client).held) :
    chargebackBranch s t =
      { s with
        accounts := insertA t.client
          { entryAccount s t.client with
            held := (entryAccount s t.client).held - d,
            total := (entryAccount s t.client).total - d,
            locked := true } s.accounts,
        disputed_txs := eraseKey t.tx s.disputed_txs } := by
  unfold chargebackBranch
  simp [h1, Account.chargeback, h2]

/-!
## Dispatch lemmas: which branch `step` takes
-/

theorem step_deposit (s : EngineState) (t : Transaction)
    (h : t.transaction_type = "deposit") : step s t = depositBranch s t := by
  simp [step, h]

theorem step_withdrawal (s : EngineState) (t : Transaction)
    (h : t.transaction_type = "withdrawal") : step s t = withdrawalBranch s t := by
  simp [step, h]

theorem step_dispute (s : EngineState) (t : Transaction)
    (h : t.transaction_type = "dispute") : step s t = disputeBranch s t := by
  simp [step, h]

theorem step_resolve (s : EngineState) (t : Transaction)
    (h : t.transaction_type = "resolve") : step s t = resolveBranch s t := by
  simp [step, h]

theorem step_chargeback (s : EngineState) (t : Transaction)
    (h : t.transaction_type = "chargeback") : step s t = chargebackBranch s t := by
  simp [step, h]

theorem step_unhandled (s : EngineState) (t : Transaction)
    (h1 : t.transaction_type ≠ "deposit") (h2 : t.transaction_type ≠ "withdrawal")
    (h3 : t.transaction_type ≠ "dispute") (h4 : t.transaction_type ≠ "resolve")
    (h5 : t.transaction_type ≠ "chargeback") : step s t = unhandledBranch s t := by
  simp [step, h1, h2, h3, h4, h5]

theorem lookupA_eraseKey_self {α : Type} (k : Nat) (m : List (Nat × α)) :
    lookupA (eraseKey k m) k = none := by
  induction m with
  | nil => rfl
  | cons p rest ih =>
    obtain ⟨k', v'⟩ := p
    by_cases h : k = k'
    · subst h
      simp [eraseKey, ih]
    · have h' : ¬ k' = k := fun hkk => h hkk.symm
      simp [eraseKey, lookupA, h, h', ih]

theorem lookupA_eraseKey_ne {α : Type} (k c : Nat) (m : List (Nat × α))
    (h : c ≠ k) : lookupA (eraseKey k m) c = lookupA m c := by
  induction m with
  | nil => rfl
  | cons p rest ih =>
    obtain ⟨k', v'⟩ := p
    by_cases hk : k = k'
    · subst hk
      have h' : ¬ k = c := fun hkk => h hkk.symm
      simp [eraseKey, lookupA, h', ih]
    · simp only [eraseKey, if_neg hk, lookupA]
      by_cases hc : k' = c
      · simp [hc]
      · simp [hc, ih]

theorem lookupA_insertA {α : Type} (k c : Nat) (v : α) (m : List (Nat × α)) :
    lookupA (insertA k v m) c = if c = k then some v else lookupA m c := by
  by_cases h : c = k
  · subst h
    simp [lookupA_insertA_self]
  · simp [h, lookupA_insertA_ne k c v m h]

/-!
## The balance invariant (claim C1)
-/

theorem balanced_empty (c : Nat) : (Account.empty c).balanced := by
  simp [Account.empty, Account.new, Account.balanced]

theorem balanced_deposit (a : Account) (x : Rat) (h : a.balanced) :
    ({ a with available := a.available + x, total := a.total + x } : Account).balanced := by
  simp only [Account.balanced] at *
  rw [h]
  ring

theorem balanced_withdraw (a : Account) (x : Rat) (h : a.balanced) :
    ({ a with available := a.available - x, total := a.total - x } : Account).balanced := by
  simp only [Account.balanced] at *
  rw [h]
  ring

theorem balanced_dispute (a : Account) (x : Rat) (h : a.balanced) :
    ({ a with available := a.available - x, held := a.held + x } : Account).balanced := by
  simp only [Account.balanced] at *
  rw [h]
  ring

theorem balanced_resolve (a : Account) (x : Rat) (h : a.balanced) :
    ({ a with available := a.available + x, held := a.held - x } : Account).balanced := by
  simp only [Account.balanced] at *
  rw [h]
  ring

theorem balanced_chargebackUpd (a : Account) (x : Rat) (h : a.balanced) :
    ({ a with held := a.held - x, total := a.total - x, locked := true } : Account).balanced := by
  simp only [Account.balanced] at *
  rw [h]
  ring

theorem step_balanced (s : EngineState) (t : Transaction)
    (h : ∀ c, (accountView s c).balanced) :
    ∀ c, (accountView (step s t) c).balanced := by
  intro c
  have hself : (entryAccount s t.client).balanced := h t.client
  by_cases h1 : t.transaction_type = "deposit"
  · rw [step_deposit s t h1, depositBranch_eq]
    simp only [accountView, lookupA_insertA]
    by_cases hc : c = t.client
    · simp only [hc, if_pos rfl]
      exact balanced_deposit _ _ hself
    · simp only [if_neg hc]
      exact h c
  · by_cases h2 : t.transaction_type = "withdrawal"
    · rw [step_withdrawal s t h2]
      by_cases hw : t.amount > (entryAccount s t.client).available
      · rw [withdrawalBranch_rejected s t hw]
        simp only [accountView, lookupA_insertA]
        by_cases hc : c = t.client
        · simp only [hc, if_pos rfl]
          exact hself
        · simp only [if_neg hc]
          exact h c
      · rw [withdrawalBranch_ok s t hw]
        simp only [accountView, lookupA_insertA]
        by_cases hc : c = t.client
        · simp only [hc, if_pos rfl]
          exact balanced_withdraw _ _ hself
        · simp only [if_neg hc]
          exact h c
    · by_cases h3 : t.transaction_type = "dispute"
      · rw [step_dispute s t h3]
        cases ha : lookupA s.applied_txs t.tx with
        | none =>
          rw [disputeBranch_notFound s t ha]
          simp only [accountView, lookupA_insertA]
          by_cases hc : c = t.client
          · simp only [hc, if_pos rfl]
            exact hself
          · simp only [if_neg hc]
            exact h c
        | some d =>
          cases hd : lookupA s.disputed_txs t.tx with
          | some d' =>
            rw [disputeBranch_twice s t d d' ha hd]
            simp only [accountView, lookupA_insertA]
            by_cases hc : c = t.client
            · simp only [hc, if_pos rfl]
              exact hself
            · simp only [if_neg hc]
              exact h c
          | none =>
            by_cases hf : d > (entryAccount s t.client).available
            · rw [disputeBranch_insufficient s t d ha hd hf]
              simp only [accountView, lookupA_insertA]
              by_cases hc : c = t.client
              · simp only [hc, if_pos rfl]
                exact hself
              · simp only [if_neg hc]
                exact h c
            · rw [disputeBranch_ok s t d ha hd hf]
              simp only [accountView, lookupA_insertA]
              by_cases hc : c = t.client
              · simp only [hc, if_pos rfl]
                exact balanced_dispute _ _ hself
              · simp only [if_neg hc]
                exact h c
      · by_cases h4 : t.transaction_type = "resolve"
        · rw [step_resolve s t h4]
          cases hd : lookupA s.disputed_txs t.tx with
          | none =>
            rw [resolveBranch_notFound s t hd]
            simp only [accountView, lookupA_insertA]
            by_cases hc : c = t.client
            · simp only [hc, if_pos rfl]
              exact hself
            · simp only [if_neg hc]
              exact h c
          | some d =>
            by_cases hf : d > (entryAccount s t.client).held
            · rw [resolveBranch_insufficient s t d hd hf]
              simp only [accountView, lookupA_insertA]
              by_cases hc : c = t.client
              · simp only [hc, if_pos rfl]
                exact hself
              · simp only [if_neg hc]
                exact h c
            · rw [resolveBranch_ok s t d hd hf]
              simp only [accountView, lookupA_insertA]
              by_cases hc : c = t.client
              · simp only [hc, if_pos rfl]
                exact balanced_resolve _ _ hself
              · simp only [if_neg hc]
                exact h c
        · by_cases h5 : t.transaction_type = "chargeback"
          · rw [step_chargeback s t h5]
            cases hd : lookupA s.disputed_txs t.tx with
            | none =>
              rw [chargebackBranch_notFound s t hd]
              simp only [accountView, lookupA_insertA]
              by_cases hc : c = t.client
              · simp only [hc, if_pos rfl]
                exact hself
              · simp only [if_neg hc]
                exact h c
            | some d =>
              by_cases hf : d > (entryAccount s t.client).held
              · rw [chargebackBranch_insufficient s t d hd hf]
                simp only [accountView, lookupA_insertA]
                by_cases hc : c = t.client
                · simp only [hc, if_pos rfl]
                  exact hself
                · simp only [if_neg hc]
                  exact h c
              · rw [chargebackBranch_ok s t d hd hf]
                simp only [accountView, lookupA_insertA]
                by_cases hc : c = t.client
                · simp only [hc, if_pos rfl]
                  exact balanced_chargebackUpd _ _ hself
                · simp only [if_neg hc]
                  exact h c
          · rw [step_unhandled s t h1 h2 h3 h4 h5]
            unfold unhandledBranch
            simp only [accountView, lookupA_insertA]
            by_cases hc : c = t.client
            · simp only [hc, if_pos rfl]
              exact hself
            · simp only [if_neg hc]
              exact h c

theorem processFrom_balanced (txs : List Transaction) (s : EngineState)
    (h : ∀ c, (accountView s c).balanced) :
    ∀ c, (accountView (processFrom s txs) c).balanced := by
  induction txs generalizing s with
  | nil => exact h
  | cons t ts ih =>
    exact ih (step s t) (step_balanced s t h)

/-!
## The dispatch-rule rejection predicate (claims C2, C6, C10)
-/

/-- Master case split on one loop iteration: a rejected record appends exactly
one diagnostic, re-stores the looked-up account unchanged and leaves both
ledgers alone (and for the five known types the diagnostic embeds the tx id);
an accepted record appends no diagnostic. -/
theorem step_cases (s : EngineState) (t : Transaction) :
    (rejects s t = true ∧ ∃ m, step s t =
        { s with accounts := insertA t.client (entryAccount s t.client) s.accounts,
                 tx_errors := s.tx_errors ++ [m] } ∧
        (t.transaction_type ∈ knownTypes → ∃ p q, m = p ++ toString t.tx ++ q)) ∨
    (rejects s t = false ∧ (step s t).tx_errors = s.tx_errors) := by
  by_cases h1 : t.transaction_type = "deposit"
  · right
    refine ⟨by simp [rejects, h1], ?_⟩
    rw [step_deposit s t h1, depositBranch_eq]
  · by_cases h2 : t.transaction_type = "withdrawal"
    · by_cases hw : t.amount > (entryAccount s t.client).available
      · left
        refine ⟨by simp [rejects, h1, h2, hw], withdrawErrMsg t.tx "Insufficient available funds", ?_, ?_⟩
        · rw [step_withdrawal s t h2, withdrawalBranch_rejected s t hw]
        · intro _
          exact ⟨"Error when handling transaction \"",
                 "\": " ++ "Insufficient available funds", rfl⟩
      · right
        refine ⟨by simp [rejects, h1, h2, hw], ?_⟩
        rw [step_withdrawal s t h2, withdrawalBranch_ok s t hw]
    · by_cases h3 : t.transaction_type = "dispute"
      · cases ha : lookupA s.applied_txs t.tx with
        | none =>
          left
          refine ⟨by simp [rejects, h1, h2, h3, ha], disputeNotFoundMsg t.tx, ?_, ?_⟩
          · rw [step_dispute s t h3, disputeBranch_notFound s t ha]
          · intro _
            exact ⟨"Could not find applied transaction \"", "\" to dispute", rfl⟩
        | some d =>
          cases hd : lookupA s.disputed_txs t.tx with
          | some d' =>
            left
            refine ⟨by simp [rejects, h1, h2, h3, ha, hd], disputeTwiceMsg t.tx, ?_, ?_⟩
            · rw [step_dispute s t h3, disputeBranch_twice s t d d' ha hd]
            · intro _
              exact ⟨"Could not dispute same transaction \"", "\" twice", rfl⟩
          | none =>
            by_cases hf : d > (entryAccount s t.client).available
            · left
              refine ⟨by simp [rejects, h1, h2, h3, ha, hd, hf],
                      disputeErrMsg t.tx "Insufficient available funds", ?_, ?_⟩
              · rw [step_dispute s t h3, disputeBranch_insufficient s t d ha hd hf]
              · intro _
                exact ⟨"Could not dispute transaction \"",
                       "\": " ++ "Insufficient available funds", rfl⟩
            · right
              refine ⟨by simp [rejects, h1, h2, h3, ha, hd, hf], ?_⟩
              rw [step_dispute s t h3, disputeBranch_ok s t d ha hd hf]
      · by_cases h4 : t.transaction_type = "resolve"
        · cases hd : lookupA s.disputed_txs t.tx with
          | none =>
            left
            refine ⟨by simp [rejects, h1, h2, h3, h4, hd], resolveNotFoundMsg t.tx, ?_, ?_⟩
            · rw [step_resolve s t h4, resolveBranch_notFound s t hd]
            · intro _
              exact ⟨"Could not find disputed transaction \"", "\" to resolve", rfl⟩
          | some d =>
            by_cases hf : d > (entryAccount s t.client).held
            · left
              refine ⟨by simp [rejects, h1, h2, h3, h4, hd, hf],
                      resolveErrMsg t.tx "Insufficient held funds", ?_, ?_⟩
              · rw [step_resolve s t h4, resolveBranch_insufficient s t d hd hf]
              · intro _
                exact ⟨"Could not resolve disputed transaction \"",
                       "\": " ++ "Insufficient held funds", rfl⟩
            · right
              refine ⟨by simp [rejects, h1, h2, h3, h4, hd, hf], ?_⟩
              rw [step_resolve s t h4, resolveBranch_ok s t d hd hf]
        · by_cases h5 : t.transaction_type = "chargeback"
          · cases hd : lookupA s.disputed_txs t.tx with
            | none =>
              left
              refine ⟨by simp [rejects, h1, h2, h3, h4, h5, hd], chargebackNotFoundMsg t.tx, ?_, ?_⟩
              · rw [step_chargeback s t h5, chargebackBranch_notFound s t hd]
              · intro _
                exact ⟨"Could not find disputed transaction \"", "\" to charge back", rfl⟩
            | some d =>
              by_cases hf : d > (entryAccount s t.client).held
              · left
                refine ⟨by simp [rejects, h1, h2, h3, h4, h5, hd, hf],
                        chargebackErrMsg t.tx "Insufficient held funds", ?_, ?_⟩
                · rw [step_chargeback s t h5, chargebackBranch_insufficient s t d hd hf]
                · intro _
                  exact ⟨"Could not charge back disputed transaction \"",
                         "\": " ++ "Insufficient held funds", rfl⟩
              · right
                refine ⟨by simp [rejects, h1, h2, h3, h4, h5, hd, hf], ?_⟩
                rw [step_chargeback s t h5, chargebackBranch_ok s t d hd hf]
          · left
            refine ⟨by simp [rejects, h1, h2, h3, h4, h5], unhandledMsg t.transaction_type, ?_, ?_⟩
            · rw [step_unhandled s t h1 h2 h3 h4 h5]
              rfl
            · intro hk
              simp [knownTypes, h1, h2, h3, h4, h5] at hk

theorem step_errors_length (s : EngineState) (t : Transaction) :
    (step s t).tx_errors.length
      = s.tx_errors.length + (if rejects s t then 1 else 0) := by
  rcases step_cases s t with ⟨hr, m, hs, _⟩ | ⟨hr, hs⟩
  · rw [hs, hr]
    simp
  · rw [hs, hr]
    simp

theorem processFrom_errors_length (txs : List Transaction) (s : EngineState) :
    (processFrom s txs).tx_errors.length
      = s.tx_errors.length + countRejected s txs := by
  induction txs generalizing s with
  | nil => rfl
  | cons t ts ih =>
    show (processFrom (step s t) ts).tx_errors.length = _
    rw [ih (step s t), step_errors_length, countRejected]
    omega

/-!
## View lemmas
-/

theorem accountView_insert (s : EngineState) (k : Nat) (a : Account)
    (ap dp : List (Nat × Rat)) (er : List String) (c : Nat) :
    accountView ⟨insertA k a s.accounts, ap, dp, er⟩ c
      = if c = k then a else accountView s c := by
  simp only [accountView, lookupA_insertA]
  by_cases h : c = k
  · simp [h]
  · simp [h]

theorem accountView_reinsert (s : EngineState) (k : Nat)
    (ap dp : List (Nat × Rat)) (er : List String) (c : Nat) :
    accountView ⟨insertA k (entryAccount s k) s.accounts, ap, dp, er⟩ c
      = accountView s c := by
  rw [accountView_insert]
  by_cases h : c = k
  · subst h
    simp only [if_pos rfl]
    rfl
  · simp [h]

/-!
## Claim theorems C1 and C2
-/

/-- C1: every account reachable during or after `process_transactions`
satisfies `total = available + held`, and each of the five `Account`
operations preserves the equation, whether it succeeds or fails. -/
theorem claim_C1 :
    (∀ (txs : List Transaction) (c : Nat),
      (accountView (processTransactions txs) c).balanced) ∧
    (∀ (a : Account) (amt : Rat), a.balanced →
      (afterOp (a.deposit amt) a).balanced ∧
      (afterOp (a.withdraw amt) a).balanced ∧
      (afterOp (a.dispute amt) a).balanced ∧
      (afterOp (a.resolve amt) a).balanced ∧
      (afterOp (a.chargeback amt) a).balanced) := by
  constructor
  · intro txs c
    exact processFrom_balanced txs initState (fun c' => balanced_empty c') c
  · intro a amt h
    refine ⟨?_, ?_, ?_, ?_, ?_⟩
    · simpa [Account.deposit, afterOp] using balanced_deposit a amt h
    · by_cases hw : amt > a.available
      · simpa [Account.withdraw, afterOp, hw] using h
      · simpa [Account.withdraw, afterOp, hw] using balanced_withdraw a amt h
    · by_cases hw : amt > a.available
      · simpa [Account.dispute, afterOp, hw] using h
      · simpa [Account.dispute, afterOp, hw] using balanced_dispute a amt h
    · by_cases hw : amt > a.held
      · simpa [Account.resolve, afterOp, hw] using h
      · simpa [Account.resolve, afterOp, hw] using balanced_resolve a amt h
    · by_cases hw : amt > a.held
      · simpa [Account.chargeback, afterOp, hw] using h
      · simpa [Account.chargeback, afterOp, hw] using balanced_chargebackUpd a amt h

unseal Rat.add Rat.sub in
theorem claim_C1_witness :
    (Account.new 7 3 4 false).balanced ∧
    (afterOp ((Account.new 7 3 4 false).chargeback 2) (Account.new 7 3 4 false)).balanced :=
  ⟨by decide, (claim_C1.2 (Account.new 7 3 4 false) 2 (by decide)).2.2.2.2⟩

/-- C2: the processor consumes the entire input sequence — processing a
concatenation runs the second part from the state the first part left, no
matter how many records of the first part were rejected — and the number of
diagnostic strings equals the number of records that the dispatch rules
reject, each rejected record contributing exactly one. -/
theorem claim_C2 :
    (∀ pre post : List Transaction,
      processTransactions (pre ++ post) = processFrom (processTransactions pre) post) ∧
    (∀ txs : List Transaction,
      (processTransactions txs).tx_errors.length = countRejected initState txs) := by
  constructor
  · intro pre post
    exact List.foldl_append step initState pre post
  · intro txs
    have h := processFrom_errors_length txs initState
    simpa [processTransactions, initState] using h

/-!
## Claim C3: the dispute dispatch rule
-/

/-- C3: a dispute record whose tx id is absent from the applied ledger, or
already present in the disputed ledger, emits exactly one diagnostic and
changes no balances; otherwise `Account::dispute` is called with the applied
amount on the account of the dispute record's own `client` field, and on
success the tx id and that amount are inserted into the disputed ledger. -/
theorem claim_C3 (s : EngineState) (t : Transaction)
    (h : t.transaction_type = "dispute") :
    (lookupA s.applied_txs t.tx = none →
      (step s t).tx_errors = s.tx_errors ++ [disputeNotFoundMsg t.tx] ∧
      (∀ c, accountView (step s t) c = accountView s c) ∧
      (step s t).applied_txs = s.applied_txs ∧
      (step s t).disputed_txs = s.disputed_txs) ∧
    (∀ d d', lookupA s.applied_txs t.tx = some d →
      lookupA s.disputed_txs t.tx = some d' →
      (step s t).tx_errors = s.tx_errors ++ [disputeTwiceMsg t.tx] ∧
      (∀ c, accountView (step s t) c = accountView s c) ∧
      (step s t).applied_txs = s.applied_txs ∧
      (step s t).disputed_txs = s.disputed_txs) ∧
    (∀ d, lookupA s.applied_txs t.tx = some d →
      lookupA s.disputed_txs t.tx = none →
      (∀ e, (entryAccount s t.client).dispute d = .error e →
        (step s t).tx_errors = s.tx_errors ++ [disputeErrMsg t.tx e] ∧
        (∀ c, accountView (step s t) c = accountView s c) ∧
        (step s t).applied_txs = s.applied_txs ∧
        (step s t).disputed_txs = s.disputed_txs) ∧
      (∀ a', (entryAccount s t.client).dispute d = .ok a' →
        (step s t).tx_errors = s.tx_errors ∧
        accountView (step s t) t.client = a' ∧
        (∀ c, c ≠ t.client → accountView (step s t) c = accountView s c) ∧
        (step s t).applied_txs = s.applied_txs ∧
        (step s t).disputed_txs = insertA t.tx d s.disputed_txs)) := by
  refine ⟨?_, ?_, ?_⟩
  · intro ha
    rw [step_dispute s t h, disputeBranch_notFound s t ha]
    refine ⟨rfl, ?_, rfl, rfl⟩
    intro c
    exact accountView_reinsert s t.client _ _ _ c
  · intro d d' ha hd
    rw [step_dispute s t h, disputeBranch_twice s t d d' ha hd]
    refine ⟨rfl, ?_, rfl, rfl⟩
    intro c
    exact accountView_reinsert s t.client _ _ _ c
  · intro d ha hd
    constructor
    · intro e he
      by_cases hf : d > (entryAccount s t.client).available
      · have he' : e = "Insufficient available funds" := by
          simp [Account.dispute, hf] at he
          exact he.symm
        subst he'
        rw [step_dispute s t h, disputeBranch_insufficient s t d ha hd hf]
        refine ⟨rfl, ?_, rfl, rfl⟩
        intro c
        exact accountView_reinsert s t.client _ _ _ c
      · simp [Account.dispute, hf] at he
    · intro a' ha'
      by_cases hf : d > (entryAccount s t.client).available
      · simp [Account.dispute, hf] at ha'
      · have ha'' : a' = { entryAccount s t.client with
            available := (entryAccount s t.client).available - d,
            held := (entryAccount s t.client).held + d } := by
          simp [Account.dispute, hf] at ha'
          exact ha'.symm
        subst ha''
        rw [step_dispute s t h, disputeBranch_ok s t d ha hd hf]
        refine ⟨rfl, ?_, ?_, rfl, rfl⟩
        · rw [accountView_insert]
          simp
        · intro c hc
          rw [accountView_insert]
          simp [hc]

unseal Rat.add Rat.sub in
theorem claim_C3_witness :
    (step ⟨[(1, ⟨1, 100, 0, 100, false⟩)], [(1, 100)], [], []⟩
        ⟨"dispute", 1, 1, 0⟩).tx_errors = [] ∧
    accountView (step ⟨[(1, ⟨1, 100, 0, 100, false⟩)], [(1, 100)], [], []⟩
        ⟨"dispute", 1, 1, 0⟩) 1 = ⟨1, 0, 100, 100, false⟩ ∧
    (step ⟨[(1, ⟨1, 100, 0, 100, false⟩)], [(1, 100)], [], []⟩
        ⟨"dispute", 1, 1, 0⟩).disputed_txs = [(1, 100)] := by
  have h := (claim_C3 ⟨[(1, ⟨1, 100, 0, 100, false⟩)], [(1, 100)], [], []⟩
    ⟨"dispute", 1, 1, 0⟩ rfl).2.2 100 rfl rfl
  have h' := h.2 ⟨1, 0, 100, 100, false⟩ (by rfl)
  exact ⟨h'.1, h'.2.1, h'.2.2.2.2⟩

/-!
## Claim C4: a resolved transaction can be disputed again
-/

/-- C4: from any state in which tx id `tx` is applied with amount `a` and
currently disputed, a successful resolve leaves the applied ledger untouched
while removing `tx` from the disputed ledger, and a subsequent dispute of the
same `tx` by the same client succeeds again with no diagnostic — dispute
eligibility is gated only by disputed-ledger membership at dispute time. -/
theorem claim_C4 (s : EngineState) (c tx : Nat) (a amt1 amt2 : Rat)
    (happ : lookupA s.applied_txs tx = some a)
    (hdis : lookupA s.disputed_txs tx = some a)
    (hheld : ¬ a > (entryAccount s c).held)
    (havail : 0 ≤ (entryAccount s c).available) :
    (step s ⟨"resolve", c, tx, amt1⟩).tx_errors = s.tx_errors ∧
    (step s ⟨"resolve", c, tx, amt1⟩).applied_txs = s.applied_txs ∧
    lookupA (step s ⟨"resolve", c, tx, amt1⟩).disputed_txs tx = none ∧
    (step (step s ⟨"resolve", c, tx, amt1⟩) ⟨"dispute", c, tx, amt2⟩).tx_errors
      = s.tx_errors ∧
    lookupA (step (step s ⟨"resolve", c, tx, amt1⟩) ⟨"dispute", c, tx, amt2⟩).disputed_txs tx
      = some a := by
  have hres := step_resolve s ⟨"resolve", c, tx, amt1⟩ rfl
  rw [hres, resolveBranch_ok s ⟨"resolve", c, tx, amt1⟩ a hdis hheld]
  set upd : Account := { entryAccount s c with
    available := (entryAccount s c).available + a,
    held := (entryAccount s c).held - a } with hupd
  set s1 : EngineState := { s with
    accounts := insertA c upd s.accounts,
    disputed_txs := eraseKey tx s.disputed_txs } with hs1
  have hentry : entryAccount s1 c = upd := by
    simp [entryAccount, hs1, lookupA_insertA_self]
  have happ1 : lookupA s1.applied_txs tx = some a := happ
  have hdis1 : lookupA s1.disputed_txs tx = none := lookupA_eraseKey_self tx s.disputed_txs
  have hf : ¬ a > (entryAccount s1 c).available := by
    rw [hentry, hupd]
    simp only [not_lt]
    linarith
  rw [step_dispute s1 ⟨"dispute", c, tx, amt2⟩ rfl,
      disputeBranch_ok s1 ⟨"dispute", c, tx, amt2⟩ a happ1 hdis1 hf]
  refine ⟨rfl, rfl, hdis1, rfl, ?_⟩
  exact lookupA_insertA_self tx a _

unseal Rat.add Rat.sub in
theorem claim_C4_witness :
    (step (step ⟨[(1, ⟨1, 0, 100, 100, false⟩)], [(1, 100)], [(1, 100)], []⟩
        ⟨"resolve", 1, 1, 0⟩) ⟨"dispute", 1, 1, 0⟩).tx_errors = [] ∧
    lookupA (step (step ⟨[(1, ⟨1, 0, 100, 100, false⟩)], [(1, 100)], [(1, 100)], []⟩
        ⟨"resolve", 1, 1, 0⟩) ⟨"dispute", 1, 1, 0⟩).disputed_txs 1 = some 100 := by
  have h := claim_C4 ⟨[(1, ⟨1, 0, 100, 100, false⟩)], [(1, 100)], [(1, 100)], []⟩
    1 1 100 0 0 rfl rfl (by decide) (by decide)
  exact ⟨h.2.2.2.1, h.2.2.2.2⟩

/-!
## Claim C5: chargeback semantics and the chargeback scenario
-/

unseal Rat.add Rat.sub in
/-- C5: `Account::chargeback` fails with the insufficient-held-funds error
when the amount exceeds `held`, leaving the account unchanged; otherwise it
subtracts the amount from `held` and `total` and locks the account.  The
deposit → dispute → chargeback scenario ends with an all-zero locked account
and no diagnostics. -/
theorem claim_C5 :
    (∀ (a : Account) (amt : Rat),
      (amt > a.held →
        a.chargeback amt = .error "Insufficient held funds" ∧
        afterOp (a.chargeback amt) a = a) ∧
      (¬ amt > a.held →
        a.chargeback amt =
          .ok { a with held := a.held - amt, total := a.total - amt, locked := true })) ∧
    accountView (processTransactions
        [⟨"deposit", 1, 1, 100⟩, ⟨"dispute", 1, 1, 0⟩, ⟨"chargeback", 1, 1, 0⟩]) 1
      = ⟨1, 0, 0, 0, true⟩ ∧
    (processTransactions
        [⟨"deposit", 1, 1, 100⟩, ⟨"dispute", 1, 1, 0⟩, ⟨"chargeback", 1, 1, 0⟩]).tx_errors
      = [] := by
  refine ⟨?_, ?_, ?_⟩
  · intro a amt
    constructor
    · intro h
      constructor
      · simp [Account.chargeback, h]
      · simp [Account.chargeback, h, afterOp]
    · intro h
      simp [Account.chargeback, h]
  · decide
  · decide

unseal Rat.add Rat.sub in
theorem claim_C5_witness :
    ((3 : Rat) > (Account.new 1 5 2 false).held ∧
      (Account.new 1 5 2 false).chargeback 3 = .error "Insufficient held funds") ∧
    (Account.new 1 5 2 false).chargeback 2 =
      .ok { Account.new 1 5 2 false with
            held := (Account.new 1 5 2 false).held - 2,
            total := (Account.new 1 5 2 false).total - 2,
            locked := true } :=
  ⟨⟨by decide, ((claim_C5.1 (Account.new 1 5 2 false) 3).1 (by decide)).1⟩,
   (claim_C5.1 (Account.new 1 5 2 false) 2).2 (by decide)⟩

/-!
## Claim C7: deposits always succeed
-/

/-- C7: `Account::deposit` returns `Ok` on every account state and amount, so
the processor's `.unwrap()` in the deposit arm can never panic, and a deposit
record never contributes a diagnostic. -/
theorem claim_C7 :
    (∀ (a : Account) (amt : Rat),
      a.deposit amt =
        .ok { a with available := a.available + amt, total := a.total + amt } ∧
      (a.deposit amt).isOk = true) ∧
    (∀ (s : EngineState) (c tx : Nat) (amt : Rat),
      (step s ⟨"deposit", c, tx, amt⟩).tx_errors = s.tx_errors) := by
  constructor
  · intro a amt
    exact ⟨rfl, rfl⟩
  · intro s c tx amt
    rw [step_deposit s ⟨"deposit", c, tx, amt⟩ rfl, depositBranch_eq]

/-!
## Claim C8: the dispute/resolve round trip

As stated over *every* account state the round trip fails: when `held` is
negative (a state the engine itself can reach, e.g. by depositing a negative
amount and then disputing it), `dispute(amount)` succeeds but the following
`resolve(amount)` is rejected, because resolve checks `amount > held` against
`held + amount`, which is below `amount` exactly when `held < 0`.
-/

unseal Rat.add Rat.sub in
theorem claim_C8_counterexample :
    ((3 : Rat) ≤ (⟨1, 10, -5, 5, false⟩ : Account).available) ∧
    (⟨1, 10, -5, 5, false⟩ : Account).dispute 3 = .ok ⟨1, 7, -2, 5, false⟩ ∧
    (⟨1, 7, -2, 5, false⟩ : Account).resolve 3 = .error "Insufficient held funds" := by
  exact ⟨by decide, by rfl, by rfl⟩

/-- C8 (amended: additionally require `0 ≤ held`, which every state reachable
with non-negative amounts satisfies): `dispute(amount)` followed by
`resolve(amount)` both succeed and restore the account exactly — in
particular `available` and `held` — with exact `Rat` arithmetic. -/
theorem claim_C8 (a : Account) (amt : Rat)
    (hheld : 0 ≤ a.held) (hamt : amt ≤ a.available) :
    ∃ a1, a.dispute amt = .ok a1 ∧ a1.resolve amt = .ok a := by
  refine ⟨{ a with available := a.available - amt, held := a.held + amt }, ?_, ?_⟩
  · simp [Account.dispute, not_lt.mpr hamt]
  · have h2 : ¬ amt > a.held + amt := by
      simp only [not_lt]
      linarith
    have e1 : a.available - amt + amt = a.available := by ring
    have e2 : a.held + amt - amt = a.held := by ring
    simp only [Account.resolve]
    simp only [h2, if_false]
    rw [e1, e2]

unseal Rat.add Rat.sub in
theorem claim_C8_witness :
    (0 : Rat) ≤ (Account.new 2 10 4 false).held ∧
    (3 : Rat) ≤ (Account.new 2 10 4 false).available ∧
    ∃ a1, (Account.new 2 10 4 false).dispute 3 = .ok a1 ∧
      a1.resolve 3 = .ok (Account.new 2 10 4 false) :=
  ⟨by decide, by decide, claim_C8 (Account.new 2 10 4 false) 3 (by decide) (by decide)⟩

/-!
## Claim C6: diagnostics of rejected records

As stated the claim fails: the diagnostic for a record of unrecognized type
names the offending type string but not the transaction id.
-/

theorem containsTxId_iff (tx : Nat) (m : String) :
    containsTxId tx m ↔ (toString tx).data <:+: m.data := by
  constructor
  · rintro ⟨p, q, rfl⟩
    exact ⟨p.data, q.data, by simp⟩
  · rintro ⟨l, r, h⟩
    refine ⟨⟨l⟩, ⟨r⟩, ?_⟩
    apply String.ext
    rw [← h]
    simp

/-- C6 counterexample: the unrecognized-type record `{type "frobnicate",
client 7, tx 5}` is rejected with exactly one diagnostic, and that diagnostic
does not identify the transaction id 5. -/
theorem claim_C6_counterexample :
    rejects initState ⟨"frobnicate", 7, 5, 0⟩ = true ∧
    (step initState ⟨"frobnicate", 7, 5, 0⟩).tx_errors = [unhandledMsg "frobnicate"] ∧
    ¬ containsTxId 5 (unhandledMsg "frobnicate") := by
  refine ⟨rfl, rfl, ?_⟩
  rw [containsTxId_iff]
  decide

unseal Rat.add Rat.sub in
/-- C6 (amended: for records of unrecognized type the single diagnostic names
the offending type string rather than the transaction id): every rejected
record appends exactly one diagnostic — identifying the tx id whenever the
type is one of the five recognized ones — and leaves every account's
`available`, `held`, `total` and `locked` fields and both ledgers exactly as
they were; the deposit-then-overdrawn-withdrawal scenario leaves the account
at `{100, 0, 100, unlocked}` with exactly one diagnostic. -/
theorem claim_C6 :
    (∀ (s : EngineState) (t : Transaction), rejects s t = true →
      (∃ m, (step s t).tx_errors = s.tx_errors ++ [m] ∧
        (t.transaction_type ∈ knownTypes → containsTxId t.tx m)) ∧
      (∀ c, accountView (step s t) c = accountView s c) ∧
      (step s t).applied_txs = s.applied_txs ∧
      (step s t).disputed_txs = s.disputed_txs) ∧
    accountView (processTransactions
        [⟨"deposit", 1, 1, 100⟩, ⟨"withdrawal", 1, 2, 150⟩]) 1
      = ⟨1, 100, 0, 100, false⟩ ∧
    (processTransactions
        [⟨"deposit", 1, 1, 100⟩, ⟨"withdrawal", 1, 2, 150⟩]).tx_errors
      = [withdrawErrMsg 2 "Insufficient available funds"] := by
  refine ⟨?_, by decide, by decide⟩
  intro s t h
  rcases step_cases s t with ⟨_, m, hs, hm⟩ | ⟨hr, _⟩
  · rw [hs]
    refine ⟨⟨m, rfl, hm⟩, ?_, rfl, rfl⟩
    intro c
    exact accountView_reinsert s t.client _ _ _ c
  · rw [h] at hr
    cases hr

unseal Rat.add Rat.sub in
theorem claim_C6_witness :
    rejects initState ⟨"withdrawal", 3, 9, 5⟩ = true ∧
    (∃ m, (step initState ⟨"withdrawal", 3, 9, 5⟩).tx_errors = [] ++ [m] ∧
      ("withdrawal" ∈ knownTypes → containsTxId 9 m)) := by
  have h : rejects initState ⟨"withdrawal", 3, 9, 5⟩ = true := by decide
  exact ⟨h, (claim_C6.1 initState ⟨"withdrawal", 3, 9, 5⟩ h).1⟩

/-!
## Claim C9: the `locked` flag is dead except to chargeback
-/

theorem lookupA_withLockedMap (L : Nat → Bool) (m : List (Nat × Account)) (c : Nat) :
    lookupA (withLockedMap L m) c
      = (lookupA m c).map (fun a => { a with locked := L c }) := by
  induction m with
  | nil => rfl
  | cons p rest ih =>
    obtain ⟨k, v⟩ := p
    by_cases h : k = c
    · subst h
      simp [withLockedMap, lookupA]
    · simp only [withLockedMap, List.map_cons, lookupA, if_neg h]
      simpa [withLockedMap] using ih

theorem entry_setLocked (L : Nat → Bool) (s : EngineState) (c : Nat) :
    ∃ b, entryAccount (setLockedAll L s) c = { entryAccount s c with locked := b } := by
  cases h : lookupA s.accounts c with
  | some a =>
    refine ⟨L c, ?_⟩
    simp [entryAccount, setLockedAll, lookupA_withLockedMap, h]
  | none =>
    refine ⟨false, ?_⟩
    simp [entryAccount, setLockedAll, lookupA_withLockedMap, h]
    rfl

theorem eraseLocked_view_setLocked (L : Nat → Bool) (s : EngineState) (c : Nat) :
    eraseLocked (accountView (setLockedAll L s) c) = eraseLocked (accountView s c) := by
  cases h : lookupA s.accounts c with
  | some a => simp [accountView, setLockedAll, lookupA_withLockedMap, h, eraseLocked]
  | none => simp [accountView, setLockedAll, lookupA_withLockedMap, h, eraseLocked]

/-- One loop iteration behaves the same — same diagnostics, same ledgers, same
balances — no matter how the stored accounts' `locked` flags are set: the
dispatcher and the four non-chargeback operations never read `locked`. -/
theorem step_locked_invariant (s : EngineState) (t : Transaction) (L : Nat → Bool) :
    (step (setLockedAll L s) t).tx_errors = (step s t).tx_errors ∧
    (step (setLockedAll L s) t).applied_txs = (step s t).applied_txs ∧
    (step (setLockedAll L s) t).disputed_txs = (step s t).disputed_txs ∧
    ∀ c, eraseLocked (accountView (step (setLockedAll L s) t) c)
        = eraseLocked (accountView (step s t) c) := by
  obtain ⟨b, hb⟩ := entry_setLocked L s t.client
  have havb : (entryAccount (setLockedAll L s) t.client).available
      = (entryAccount s t.client).available := by rw [hb]
  have hhb : (entryAccount (setLockedAll L s) t.client).held
      = (entryAccount s t.client).held := by rw [hb]
  by_cases h1 : t.transaction_type = "deposit"
  · rw [step_deposit (setLockedAll L s) t h1, step_deposit s t h1, depositBranch_eq, depositBranch_eq]
    refine ⟨rfl, rfl, rfl, ?_⟩
    intro c
    rw [accountView_insert, accountView_insert]
    by_cases hc : c = t.client
    · simp [hc, hb, eraseLocked]
    · simp only [if_neg hc]
      exact eraseLocked_view_setLocked L s c
  · by_cases h2 : t.transaction_type = "withdrawal"
    · rw [step_withdrawal (setLockedAll L s) t h2, step_withdrawal s t h2]
      by_cases hw : t.amount > (entryAccount s t.client).available
      · have hw' : t.amount > (entryAccount (setLockedAll L s) t.client).available := by
          rw [havb]
          exact hw
        rw [withdrawalBranch_rejected (setLockedAll L s) t hw', withdrawalBranch_rejected s t hw]
        refine ⟨rfl, rfl, rfl, ?_⟩
        intro c
        rw [accountView_insert, accountView_insert]
        by_cases hc : c = t.client
        · simp [hc, hb, eraseLocked]
        · simp only [if_neg hc]
          exact eraseLocked_view_setLocked L s c
      · have hw' : ¬ t.amount > (entryAccount (setLockedAll L s) t.client).available := by
          rw [havb]
          exact hw
        rw [withdrawalBranch_ok (setLockedAll L s) t hw', withdrawalBranch_ok s t hw]
        refine ⟨rfl, rfl, rfl, ?_⟩
        intro c
        rw [accountView_insert, accountView_insert]
        by_cases hc : c = t.client
        · simp [hc, hb, eraseLocked]
        · simp only [if_neg hc]
          exact eraseLocked_view_setLocked L s c
    · by_cases h3 : t.transaction_type = "dispute"
      · rw [step_dispute (setLockedAll L s) t h3, step_dispute s t h3]
        cases ha : lookupA s.applied_txs t.tx with
        | none =>
          rw [disputeBranch_notFound (setLockedAll L s) t ha, disputeBranch_notFound s t ha]
          refine ⟨rfl, rfl, rfl, ?_⟩
          intro c
          rw [accountView_insert, accountView_insert]
          by_cases hc : c = t.client
          · simp [hc, hb, eraseLocked]
          · simp only [if_neg hc]
            exact eraseLocked_view_setLocked L s c
        | some d =>
          cases hd : lookupA s.disputed_txs t.tx with
          | some d' =>
            rw [disputeBranch_twice (setLockedAll L s) t d d' ha hd, disputeBranch_twice s t d d' ha hd]
            refine ⟨rfl, rfl, rfl, ?_⟩
            intro c
            rw [accountView_insert, accountView_insert]
            by_cases hc : c = t.client
            · simp [hc, hb, eraseLocked]
            · simp only [if_neg hc]
              exact eraseLocked_view_setLocked L s c
          | none =>
            by_cases hf : d > (entryAccount s t.client).available
            · have hf' : d > (entryAccount (setLockedAll L s) t.client).available := by
                rw [havb]
                exact hf
              rw [disputeBranch_insufficient (setLockedAll L s) t d ha hd hf',
                  disputeBranch_insufficient s t d ha hd hf]
              refine ⟨rfl, rfl, rfl, ?_⟩
              intro c
              rw [accountView_insert, accountView_insert]
              by_cases hc : c = t.client
              · simp [hc, hb, eraseLocked]
              · simp only [if_neg hc]
                exact eraseLocked_view_setLocked L s c
            · have hf' : ¬ d > (entryAccount (setLockedAll L s) t.client).available := by
                rw [havb]
                exact hf
              rw [disputeBranch_ok (setLockedAll L s) t d ha hd hf', disputeBranch_ok s t d ha hd hf]
              refine ⟨rfl, rfl, rfl, ?_⟩
              intro c
              rw [accountView_insert, accountView_insert]
              by_cases hc : c = t.client
              · simp [hc, hb, eraseLocked]
              · simp only [if_neg hc]
                exact eraseLocked_view_setLocked L s c
      · by_cases h4 : t.transaction_type = "resolve"
        · rw [step_resolve (setLockedAll L s) t h4, step_resolve s t h4]
          cases hd : lookupA s.disputed_txs t.tx with
          | none =>
            rw [resolveBranch_notFound (setLockedAll L s) t hd, resolveBranch_notFound s t hd]
            refine ⟨rfl, rfl, rfl, ?_⟩
            intro c
            rw [accountView_insert, accountView_insert]
            by_cases hc : c = t.client
            · simp [hc, hb, eraseLocked]
            · simp only [if_neg hc]
              exact eraseLocked_view_setLocked L s c
          | some d =>
            by_cases hf : d > (entryAccount s t.client).held
            · have hf' : d > (entryAccount (setLockedAll L s) t.client).held := by
                rw [hhb]
                exact hf
              rw [resolveBranch_insufficient (setLockedAll L s) t d hd hf',
                  resolveBranch_insufficient s t d hd hf]
              refine ⟨rfl, rfl, rfl, ?_⟩
              intro c
              rw [accountView_insert, accountView_insert]
              by_cases hc : c = t.client
              · simp [hc, hb, eraseLocked]
              · simp only [if_neg hc]
                exact eraseLocked_view_setLocked L s c
            · have hf' : ¬ d > (entryAccount (setLockedAll L s) t.client).held := by
                rw [hhb]
                exact hf
              rw [resolveBranch_ok (setLockedAll L s) t d hd hf', resolveBranch_ok s t d hd hf]
              refine ⟨rfl, rfl, rfl, ?_⟩
              intro c
              rw [accountView_insert, accountView_insert]
              by_cases hc : c = t.client
              · simp [hc, hb, eraseLocked]
              · simp only [if_neg hc]
                exact eraseLocked_view_setLocked L s c
        · by_cases h5 : t.transaction_type = "chargeback"
          · rw [step_chargeback (setLockedAll L s) t h5, step_chargeback s t h5]
            cases hd : lookupA s.disputed_txs t.tx with
            | none =>
              rw [chargebackBranch_notFound (setLockedAll L s) t hd, chargebackBranch_notFound s t hd]
              refine ⟨rfl, rfl, rfl, ?_⟩
              intro c
              rw [accountView_insert, accountView_insert]
              by_cases hc : c = t.client
              · simp [hc, hb, eraseLocked]
              · simp only [if_neg hc]
                exact eraseLocked_view_setLocked L s c
            | some d =>
              by_cases hf : d > (entryAccount s t.client).held
              · have hf' : d > (entryAccount (setLockedAll L s) t.client).held := by
                  rw [hhb]
                  exact hf
                rw [chargebackBranch_insufficient (setLockedAll L s) t d hd hf',
                    chargebackBranch_insufficient s t d hd hf]
                refine ⟨rfl, rfl, rfl, ?_⟩
                intro c
                rw [accountView_insert, accountView_insert]
                by_cases hc : c = t.client
                · simp [hc, hb, eraseLocked]
                · simp only [if_neg hc]
                  exact eraseLocked_view_setLocked L s c
              · have hf' : ¬ d > (entryAccount (setLockedAll L s) t.client).held := by
                  rw [hhb]
                  exact hf
                rw [chargebackBranch_ok (setLockedAll L s) t d hd hf', chargebackBranch_ok s t d hd hf]
                refine ⟨rfl, rfl, rfl, ?_⟩
                intro c
                rw [accountView_insert, accountView_insert]
                by_cases hc : c = t.client
                · simp [hc, hb, eraseLocked]
                · simp only [if_neg hc]
                  exact eraseLocked_view_setLocked L s c
          · rw [step_unhandled (setLockedAll L s) t h1 h2 h3 h4 h5, step_unhandled s t h1 h2 h3 h4 h5]
            unfold unhandledBranch
            refine ⟨rfl, rfl, rfl, ?_⟩
            intro c
            rw [accountView_insert, accountView_insert]
            by_cases hc : c = t.client
            · simp [hc, hb, eraseLocked]
            · simp only [if_neg hc]
              exact eraseLocked_view_setLocked L s c

/-- C9: `deposit`, `withdraw`, `dispute` and `resolve` neither read nor write
the `locked` flag (their outcome commutes with overwriting it), `chargeback`
ignores its prior value, and the processor dispatches every record exactly as
it would against unlocked accounts: overwriting all stored `locked` flags
changes no diagnostics, no ledgers and no balances. -/
theorem claim_C9 :
    (∀ (a : Account) (amt : Rat) (b : Bool),
      ({ a with locked := b } : Account).deposit amt
        = (a.deposit amt).map (fun x => { x with locked := b }) ∧
      ({ a with locked := b } : Account).withdraw amt
        = (a.withdraw amt).map (fun x => { x with locked := b }) ∧
      ({ a with locked := b } : Account).dispute amt
        = (a.dispute amt).map (fun x => { x with locked := b }) ∧
      ({ a with locked := b } : Account).resolve amt
        = (a.resolve amt).map (fun x => { x with locked := b })) ∧
    (∀ (a : Account) (amt : Rat) (b : Bool),
      ({ a with locked := b } : Account).chargeback amt = a.chargeback amt) ∧
    (∀ (s : EngineState) (t : Transaction) (L : Nat → Bool),
      (step (setLockedAll L s) t).tx_errors = (step s t).tx_errors ∧
      (step (setLockedAll L s) t).applied_txs = (step s t).applied_txs ∧
      (step (setLockedAll L s) t).disputed_txs = (step s t).disputed_txs ∧
      ∀ c, eraseLocked (accountView (step (setLockedAll L s) t) c)
          = eraseLocked (accountView (step s t) c)) := by
  refine ⟨?_, ?_, ?_⟩
  · intro a amt b
    refine ⟨rfl, ?_, ?_, ?_⟩
    · by_cases h : amt > a.available
      · simp [Account.withdraw, h, Except.map]
      · simp [Account.withdraw, h, Except.map]
    · by_cases h : amt > a.available
      · simp [Account.dispute, h, Except.map]
      · simp [Account.dispute, h, Except.map]
    · by_cases h : amt > a.held
      · simp [Account.resolve, h, Except.map]
      · simp [Account.resolve, h, Except.map]
  · intro a amt b
    by_cases h : amt > a.held
    · simp [Account.chargeback, h]
    · simp [Account.chargeback, h]
  · intro s t L
    exact step_locked_invariant s t L

/-!
## Claim C10: one account per client id seen anywhere in the input
-/

theorem step_accounts_shape (s : EngineState) (t : Transaction) :
    ∃ X, (step s t).accounts = insertA t.client X s.accounts := by
  by_cases h1 : t.transaction_type = "deposit"
  · rw [step_deposit s t h1, depositBranch_eq]
    exact ⟨_, rfl⟩
  · by_cases h2 : t.transaction_type = "withdrawal"
    · rw [step_withdrawal s t h2]
      by_cases hw : t.amount > (entryAccount s t.client).available
      · rw [withdrawalBranch_rejected s t hw]
        exact ⟨_, rfl⟩
      · rw [withdrawalBranch_ok s t hw]
        exact ⟨_, rfl⟩
    · by_cases h3 : t.transaction_type = "dispute"
      · rw [step_dispute s t h3]
        cases ha : lookupA s.applied_txs t.tx with
        | none =>
          rw [disputeBranch_notFound s t ha]
          exact ⟨_, rfl⟩
        | some d =>
          cases hd : lookupA s.disputed_txs t.tx with
          | some d' =>
            rw [disputeBranch_twice s t d d' ha hd]
            exact ⟨_, rfl⟩
          | none =>
            by_cases hf : d > (entryAccount s t.client).available
            · rw [disputeBranch_insufficient s t d ha hd hf]
              exact ⟨_, rfl⟩
            · rw [disputeBranch_ok s t d ha hd hf]
              exact ⟨_, rfl⟩
      · by_cases h4 : t.transaction_type = "resolve"
        · rw [step_resolve s t h4]
          cases hd : lookupA s.disputed_txs t.tx with
          | none =>
            rw [resolveBranch_notFound s t hd]
            exact ⟨_, rfl⟩
          | some d =>
            by_cases hf : d > (entryAccount s t.client).held
            · rw [resolveBranch_insufficient s t d hd hf]
              exact ⟨_, rfl⟩
            · rw [resolveBranch_ok s t d hd hf]
              exact ⟨_, rfl⟩
        · by_cases h5 : t.transaction_type = "chargeback"
          · rw [step_chargeback s t h5]
            cases hd : lookupA s.disputed_txs t.tx with
            | none =>
              rw [chargebackBranch_notFound s t hd]
              exact ⟨_, rfl⟩
            | some d =>
              by_cases hf : d > (entryAccount s t.client).held
              · rw [chargebackBranch_insufficient s t d hd hf]
                exact ⟨_, rfl⟩
              · rw [chargebackBranch_ok s t d hd hf]
                exact ⟨_, rfl⟩
          · rw [step_unhandled s t h1 h2 h3 h4 h5]
            exact ⟨_, rfl⟩

theorem mem_keys_insertA {α : Type} (k c : Nat) (v : α) (m : List (Nat × α)) :
    c ∈ (insertA k v m).map Prod.fst ↔ c = k ∨ c ∈ m.map Prod.fst := by
  induction m with
  | nil => simp [insertA]
  | cons p rest ih =>
    obtain ⟨k', v'⟩ := p
    by_cases h : k = k'
    · subst h
      simp [insertA]
    · simp only [insertA, if_neg h, List.map_cons, List.mem_cons, ih]
      tauto

theorem nodupKeys_insertA {α : Type} (k : Nat) (v : α) (m : List (Nat × α))
    (h : (m.map Prod.fst).Nodup) : ((insertA k v m).map Prod.fst).Nodup := by
  induction m with
  | nil => simp [insertA]
  | cons p rest ih =>
    obtain ⟨k', v'⟩ := p
    simp only [List.map_cons, List.nodup_cons] at h
    by_cases hk : k = k'
    · subst hk
      simpa [insertA] using h
    · simp only [insertA, if_neg hk, List.map_cons, List.nodup_cons]
      refine ⟨?_, ih h.2⟩
      rw [mem_keys_insertA]
      rintro (rfl | hmem)
      · exact hk rfl
      · exact h.1 hmem

theorem lookupA_isSome_iff {α : Type} (m : List (Nat × α)) (c : Nat) :
    (lookupA m c).isSome = true ↔ c ∈ m.map Prod.fst := by
  induction m with
  | nil => simp [lookupA]
  | cons p rest ih =>
    obtain ⟨k, v⟩ := p
    by_cases h : k = c
    · subst h
      simp [lookupA]
    · have h' : ¬ c = k := fun hkk => h hkk.symm
      simp [lookupA, h, h', ih]

theorem processFrom_mem (txs : List Transaction) (s : EngineState) (c : Nat) :
    (lookupA (processFrom s txs).accounts c).isSome = true
      ↔ c ∈ txs.map Transaction.client ∨ (lookupA s.accounts c).isSome = true := by
  induction txs generalizing s with
  | nil => simp [processFrom]
  | cons t ts ih =>
    show (lookupA (processFrom (step s t) ts).accounts c).isSome = true ↔ _
    rw [ih (step s t)]
    obtain ⟨X, hX⟩ := step_accounts_shape s t
    rw [hX, lookupA_insertA]
    by_cases hc : c = t.client
    · simp [hc]
    · simp [hc]

theorem processFrom_nodupKeys (txs : List Transaction) (s : EngineState)
    (h : (s.accounts.map Prod.fst).Nodup) :
    ((processFrom s txs).accounts.map Prod.fst).Nodup := by
  induction txs generalizing s with
  | nil => exact h
  | cons t ts ih =>
    show ((processFrom (step s t) ts).accounts.map Prod.fst).Nodup
    apply ih
    obtain ⟨X, hX⟩ := step_accounts_shape s t
    rw [hX]
    exact nodupKeys_insertA t.client X s.accounts h

theorem step_other_client (s : EngineState) (t : Transaction) (c : Nat)
    (h : c ≠ t.client) : accountView (step s t) c = accountView s c := by
  obtain ⟨X, hX⟩ := step_accounts_shape s t
  simp [accountView, hX, lookupA_insertA, h]

theorem processFrom_allRejected (txs : List Transaction) :
    ∀ (s : EngineState) (c : Nat), accountView s c = Account.empty c →
      allRejectedFor c s txs →
      accountView (processFrom s txs) c = Account.empty c := by
  induction txs with
  | nil =>
    intro s c h _
    exact h
  | cons t ts ih =>
    intro s c h hrej
    obtain ⟨h1, h2⟩ := hrej
    refine ih (step s t) c ?_ h2
    by_cases hc : c = t.client
    · have hr : rejects s t = true := h1 hc.symm
      rcases step_cases s t with ⟨_, m, hs, _⟩ | ⟨hfalse, _⟩
      · rw [hs, accountView_reinsert]
        exact h
      · rw [hr] at hfalse
        cases hfalse
    · rw [step_other_client s t c hc]
      exact h

/-- C10: the processor creates an account for each record's client id before
dispatching — even for rejected or unrecognized-type records — so the final
account set holds exactly one account per distinct client id occurring in the
input, and a client all of whose records were rejected ends as the all-zero,
unlocked account. -/
theorem claim_C10 :
    (∀ (s : EngineState) (t : Transaction),
      (lookupA (step s t).accounts t.client).isSome = true) ∧
    (∀ (txs : List Transaction) (c : Nat),
      (lookupA (processTransactions txs).accounts c).isSome = true
        ↔ c ∈ txs.map Transaction.client) ∧
    (∀ txs : List Transaction,
      ((processTransactions txs).accounts.map Prod.fst).Nodup) ∧
    (∀ (txs : List Transaction) (c : Nat),
      allRejectedFor c initState txs →
      accountView (processTransactions txs) c = Account.empty c) := by
  refine ⟨?_, ?_, ?_, ?_⟩
  · intro s t
    obtain ⟨X, hX⟩ := step_accounts_shape s t
    rw [hX, lookupA_insertA_self]
    rfl
  · intro txs c
    rw [processTransactions, processFrom_mem txs initState c]
    simp [initState, lookupA]
  · intro txs
    exact processFrom_nodupKeys txs initState (by simp [initState])
  · intro txs c h
    exact processFrom_allRejected txs initState c rfl h

unseal Rat.add Rat.sub in
theorem claim_C10_witness :
    allRejectedFor 7 initState [⟨"frobnicate", 7, 5, 3⟩, ⟨"withdrawal", 7, 6, 2⟩] ∧
    accountView (processTransactions
        [⟨"frobnicate", 7, 5, 3⟩, ⟨"withdrawal", 7, 6, 2⟩]) 7
      = Account.empty 7 := by
  have h : allRejectedFor 7 initState
      [⟨"frobnicate", 7, 5, 3⟩, ⟨"withdrawal", 7, 6, 2⟩] :=
    ⟨fun _ => by decide, fun _ => by decide, trivial⟩
  exact ⟨h, claim_C10.2.2.2
    [⟨"frobnicate", 7, 5, 3⟩, ⟨"withdrawal", 7, 6, 2⟩] 7 h⟩

end ToyTx
